import Mathlib

/-!
Verification of the websocket notification component of the Blog repository
(`blog/consumers.py`, class `NotificationConsumer`).

The channel layer's group bookkeeping is modelled as a list of
(group name, channel name) pairs; Python dict lookups that can raise
`KeyError` become `Option`-valued lookups; the per-consumer attributes
`post_group_name` and the accepted flag become fields of a record.
The outbound wire payload `json.dumps({'message': message})` is represented
structurally as a record with the single field `message`.
-/

namespace Blog

/-- Lookup of a key in a Python-style dict, modelled as an association list.
`none` corresponds to a `KeyError` on `d[k]`. -/
def lookup (k : String) : List (String × String) → Option String
  | [] => none
  | (k', v) :: rest => if k' = k then some v else lookup k rest

/-- The group key derived in `connect`: `f"post_{post_id}"`. -/
def postGroupName (post_id : String) : String := "post_" ++ post_id

/-- Channel-layer group membership: the set of (group, channel) registrations,
kept as a duplicate-free list. -/
abbrev GroupState := List (String × String)

/-- `channel_layer.group_add(group, channel)`: register `channel` in `group`
(set semantics: re-adding an existing member leaves membership unchanged). -/
def group_add (group channel : String) (st : GroupState) : GroupState :=
  if (group, channel) ∈ st then st else (group, channel) :: st

/-- `channel_layer.group_discard(group, channel)`: remove the registration if
present; a no-op when the channel is not registered in the group. -/
def group_discard (group channel : String) (st : GroupState) : GroupState :=
  st.filter (fun p => decide (p ≠ (group, channel)))

/-- The channels currently registered in `group`. -/
def groupMembers (group : String) (st : GroupState) : List String :=
  st.filterMap (fun p => if p.1 = group then some p.2 else none)

/-- Per-connection state of a `NotificationConsumer` instance:
its unique channel name, the `post_group_name` attribute (unset before
`connect` runs), and whether `accept()` has been called. -/
structure NotificationConsumer where
  channel_name : String
  post_group_name : Option String := none
  accepted : Bool := false
deriving DecidableEq, Repr

/-- `NotificationConsumer.connect`: reads
`self.scope['url_route']['kwargs']['post_id']` (a `KeyError`, modelled as
`none`, if absent), sets `self.post_group_name = f"post_{post_id}"`, calls
`group_add`, then `accept()`. -/
def connect (url_kwargs : List (String × String)) (c : NotificationConsumer)
    (layer : GroupState) : Option (NotificationConsumer × GroupState) :=
  match lookup "post_id" url_kwargs with
  | none => none
  | some post_id =>
      let g := postGroupName post_id
      some ({ c with post_group_name := some g, accepted := true },
            group_add g c.channel_name layer)

/-- `NotificationConsumer.disconnect(close_code)`: calls
`group_discard(self.post_group_name, self.channel_name)`. The close code is
ignored. `none` models the `AttributeError` were `post_group_name` unset,
which the transport lifecycle makes unreachable (disconnect is dispatched
only on sessions whose `connect` ran). -/
def disconnect (close_code : Nat) (c : NotificationConsumer)
    (layer : GroupState) : Option GroupState :=
  match c.post_group_name with
  | none => none
  | some g =>
      let _ := close_code
      some (group_discard g c.channel_name layer)

/-- The outbound wire payload: `json.dumps({'message': message})`,
represented structurally as a one-field record. -/
structure WireMessage where
  message : String
deriving DecidableEq, Repr

/-- `NotificationConsumer.send_notification(event)`: reads
`event['message']` (a `KeyError`, modelled as `none`, if the key is absent —
nothing is sent in that case) and sends `{'message': message}`. -/
def send_notification (event : List (String × String)) : Option WireMessage :=
  (lookup "message" event).map (fun m => { message := m })

/-- The event dict the CRUD layer publishes for a notification:
`{'type': 'send_notification', 'message': m}`. -/
def notifyEvent (m : String) : List (String × String) :=
  [("type", "send_notification"), ("message", m)]

/-- Modelled from the spec: the channel layer's `group_send` fan-out
(django-channels framework code, not in the repository source). It dispatches
the event to each consumer currently registered in the group, independently;
the `alive` oracle says whether a session's underlying connection is still
up, and a dead session's send simply produces no delivery, in isolation.
Returns the list of (channel, payload) deliveries. -/
def group_send (alive : String → Bool) (group : String)
    (event : List (String × String)) (layer : GroupState) :
    List (String × WireMessage) :=
  (groupMembers group layer).filterMap (fun ch =>
    if alive ch then (send_notification event).map (fun w => (ch, w))
    else none)

/-- `notify(postId, message)`: group_send of the notification event to the
group of `post_id`. -/
def notify (alive : String → Bool) (post_id m : String) (layer : GroupState) :
    List (String × WireMessage) :=
  group_send alive (postGroupName post_id) (notifyEvent m) layer

/-! ### Trace semantics

An execution is a sequence of lifecycle events driven by the transport
(connect, disconnect) and the CRUD layer (notify), interpreted over a system
state that carries the channel layer, each session's `post_group_name`
attribute, and the log of deliveries performed so far. -/

/-- A lifecycle event. Sessions are identified by their channel name. -/
inductive Event
  | connect (post_id session : String)
  | disconnect (session : String) (close_code : Nat)
  | notify (post_id message : String)
deriving DecidableEq, Repr

/-- System state: channel-layer registrations, each session's
`post_group_name` attribute, and the delivery log. -/
structure Sys where
  layer : GroupState
  grp : String → Option String
  log : List (String × WireMessage)

/-- The state before any session has connected. -/
def initSys : Sys := { layer := [], grp := fun _ => none, log := [] }

/-- One event interpreted on the state, mirroring the consumer's bodies:
connect sets `post_group_name` and calls `group_add`; disconnect calls
`group_discard` on the session's own group (the close code is ignored;
the `none` branch is unreachable for transport-generated traces); notify
fans the event out to the group's current members. -/
def step (alive : String → Bool) (s : Sys) : Event → Sys
  | .connect p sess =>
      let g := postGroupName p
      { s with layer := group_add g sess s.layer,
               grp := fun x => if x = sess then some g else s.grp x }
  | .disconnect sess _ =>
      match s.grp sess with
      | some g => { s with layer := group_discard g sess s.layer }
      | none => s
  | .notify p m => { s with log := s.log ++ notify alive p m s.layer }

/-- Run a trace of events from a state. -/
def run (alive : String → Bool) (s : Sys) : List Event → Sys
  | [] => s
  | e :: tr => run alive (step alive s e) tr

/-- Well-formedness of a trace with respect to the transport lifecycle,
given the currently connected sessions and the sessions seen so far:
a connect uses a fresh channel name (channel names are unique per
connection; a reconnecting client opens a new session), and a disconnect
is dispatched only on a currently connected session. -/
def wfAux (active seen : List String) : List Event → Bool
  | [] => true
  | .connect _ sess :: tr =>
      !(seen.contains sess) && wfAux (sess :: active) (sess :: seen) tr
  | .disconnect sess _ :: tr =>
      active.contains sess && wfAux (active.erase sess) seen tr
  | .notify _ _ :: tr => wfAux active seen tr

/-- Well-formedness of a trace started from the initial state. -/
def wf (tr : List Event) : Bool := wfAux [] [] tr

/-- Spec-side account of a single event's effect on a session's current
group: connect fixes it, disconnect clears it, notify leaves it. -/
def accStep (acc : String → Option String) : Event → (String → Option String)
  | .connect p sess => fun x => if x = sess then some (postGroupName p) else acc x
  | .disconnect sess _ => fun x => if x = sess then none else acc x
  | .notify _ _ => acc

/-- Iterated spec-side account over a trace. -/
def accRun (acc : String → Option String) : List Event → (String → Option String)
  | [] => acc
  | e :: tr => accRun (accStep acc e) tr

/-- The group a session belongs to after a trace, by the spec's words:
the group fixed by its connect, unless it has disconnected since. -/
def activeGroup (tr : List Event) : String → Option String :=
  accRun (fun _ => none) tr

/-- Whether an event is a connect of the given session. -/
def connectsSession (sess : String) : Event → Bool
  | .connect _ s => s = sess
  | _ => false

/-- The three operations performed, in order, by the body of `connect`
(`consumers.py` lines 6-14): set `self.post_group_name`, call
`channel_layer.group_add`, call `self.accept()`. -/
inductive ConnectAction
  | set_group_name
  | group_add_call
  | accept_call
deriving DecidableEq, Repr

/-- The source order of the statements in the body of `connect`. -/
def connectBody : List ConnectAction :=
  [ConnectAction.set_group_name, ConnectAction.group_add_call,
   ConnectAction.accept_call]

/-- Membership in `groupMembers` is registration in the layer. -/
theorem mem_groupMembers {group s : String} {st : GroupState} :
    s ∈ groupMembers group st ↔ (group, s) ∈ st := by
  constructor
  · intro h
    rcases List.mem_filterMap.mp h with ⟨⟨g', ch⟩, hmem, hf⟩
    by_cases hg : g' = group
    · subst hg
      simp at hf
      exact hf ▸ hmem
    · simp [hg] at hf
  · intro h
    exact List.mem_filterMap.mpr ⟨(group, s), h, by simp⟩

/-- Characterization of fan-out deliveries: a session receives a payload
from `group_send` exactly when it is registered in the group, its connection
is alive, and the handler produces that payload from the event. -/
theorem mem_group_send {alive : String → Bool} {group : String}
    {event : List (String × String)} {layer : GroupState}
    {s : String} {w : WireMessage} :
    (s, w) ∈ group_send alive group event layer ↔
      ((group, s) ∈ layer ∧ alive s = true ∧
        send_notification event = some w) := by
  unfold group_send
  constructor
  · intro h
    rcases List.mem_filterMap.mp h with ⟨ch, hmem, hf⟩
    by_cases ha : alive ch = true
    · simp only [ha, if_true] at hf
      rcases Option.map_eq_some'.mp hf with ⟨w', hw', heq⟩
      have hch : ch = s := congrArg Prod.fst heq
      have hww : w' = w := congrArg Prod.snd heq
      subst hch
      exact ⟨mem_groupMembers.mp hmem, ha, hww ▸ hw'⟩
    · simp only [Bool.not_eq_true] at ha
      simp [ha] at hf
  · rintro ⟨hmem, ha, hsend⟩
    exact List.mem_filterMap.mpr
      ⟨s, mem_groupMembers.mpr hmem, by simp [ha, hsend]⟩

/-- The handler applied to the notification event always yields the
one-field payload. -/
theorem send_notification_notifyEvent (m : String) :
    send_notification (notifyEvent m) = some { message := m } := by
  simp [send_notification, notifyEvent, lookup]

/-- The group key is injective: distinct post ids give distinct groups. -/
theorem postGroupName_injective {p p' : String}
    (h : postGroupName p = postGroupName p') : p = p' := by
  unfold postGroupName at h
  have hdata : ("post_" ++ p).data = ("post_" ++ p').data := congrArg String.data h
  rw [String.data_append, String.data_append] at hdata
  have hpp := List.append_cancel_left hdata
  cases p; cases p'
  exact congrArg String.mk hpp

/-- Running a concatenation of traces is running them in sequence. -/
theorem run_append (alive : String → Bool) (s : Sys) (t1 t2 : List Event) :
    run alive s (t1 ++ t2) = run alive (run alive s t1) t2 := by
  induction t1 generalizing s with
  | nil => rfl
  | cons e tr ih => simpa [run] using ih (step alive s e)

/-- The spec-side account of a concatenation of traces. -/
theorem accRun_append (acc : String → Option String) (t1 t2 : List Event) :
    accRun acc (t1 ++ t2) = accRun (accRun acc t1) t2 := by
  induction t1 generalizing acc with
  | nil => rfl
  | cons e tr ih => simpa [accRun] using ih (accStep acc e)

/-- Well-formedness restricts to a prefix of the trace. -/
theorem wfAux_append_left {active seen : List String} {t1 t2 : List Event}
    (h : wfAux active seen (t1 ++ t2) = true) : wfAux active seen t1 = true := by
  induction t1 generalizing active seen with
  | nil => rfl
  | cons e tr ih =>
    cases e with
    | connect p sess =>
      simp only [List.cons_append, wfAux, Bool.and_eq_true] at h ⊢
      exact ⟨h.1, ih h.2⟩
    | disconnect sess c =>
      simp only [List.cons_append, wfAux, Bool.and_eq_true] at h ⊢
      exact ⟨h.1, ih h.2⟩
    | notify p m =>
      simp only [List.cons_append, wfAux] at h ⊢
      exact ih h

/-- Membership after `group_add`. -/
theorem mem_group_add {g c : String} {x : String × String} {st : GroupState} :
    x ∈ group_add g c st ↔ x = (g, c) ∨ x ∈ st := by
  unfold group_add
  split
  · constructor
    · exact Or.inr
    · rintro (rfl | hx)
      · assumption
      · exact hx
  · simp

/-- Membership after `group_discard`. -/
theorem mem_group_discard {g c : String} {x : String × String} {st : GroupState} :
    x ∈ group_discard g c st ↔ x ∈ st ∧ x ≠ (g, c) := by
  unfold group_discard
  simp [List.mem_filter]

/-- Refinement of the channel layer by the spec-side account: running a
well-formed trace, a registration `(g, s)` is in the layer exactly when the
spec-side account assigns group `g` to session `s`. Generalized over the
starting state for the induction; the side conditions tie the starting state
to the account. -/
theorem run_layer_invariant (alive : String → Bool) :
    ∀ (tr : List Event) (st : Sys) (acc : String → Option String)
      (active seen : List String),
      wfAux active seen tr = true →
      active.Nodup →
      (∀ s, s ∈ active ↔ (acc s).isSome = true) →
      (∀ s, s ∈ active → s ∈ seen) →
      (∀ g s, (g, s) ∈ st.layer ↔ acc s = some g) →
      (∀ s, s ∈ active → st.grp s = acc s) →
      ∀ g s, (g, s) ∈ (run alive st tr).layer ↔ accRun acc tr s = some g := by
  intro tr
  induction tr with
  | nil =>
    intro st acc active seen _ _ _ _ hlayer _ g s
    exact hlayer g s
  | cons e tr ih =>
    intro st acc active seen hwf hnd hact hsub hlayer hgrp g s
    cases e with
    | connect p sess =>
      simp only [wfAux, Bool.and_eq_true] at hwf
      obtain ⟨hfresh0, hwf'⟩ := hwf
      have hfresh : sess ∉ seen := by simpa using hfresh0
      have hsessact : sess ∉ active := fun h => hfresh (hsub sess h)
      have haccsess : acc sess = none := by
        cases hcs : acc sess with
        | none => rfl
        | some g0 => exact absurd ((hact sess).mpr (by simp [hcs])) hsessact
      have hnotin : (postGroupName p, sess) ∉ st.layer := by
        intro h
        rw [hlayer] at h
        simp [haccsess] at h
      have hstep : step alive st (Event.connect p sess) =
          { st with layer := group_add (postGroupName p) sess st.layer,
                    grp := fun x => if x = sess then some (postGroupName p)
                           else st.grp x } := rfl
      rw [run, hstep, accRun]
      refine ih _ _ (sess :: active) (sess :: seen) hwf'
        (List.nodup_cons.mpr ⟨hsessact, hnd⟩) ?_ ?_ ?_ ?_ g s
      · intro x
        by_cases hx : x = sess
        · subst hx; simp [accStep]
        · simp only [List.mem_cons, accStep, if_neg hx]
          rw [hact x]
          simp [hx]
      · intro x hx
        rcases List.mem_cons.mp hx with rfl | hx'
        · exact List.mem_cons_self _ _
        · exact List.mem_cons_of_mem _ (hsub x hx')
      · intro g' s'
        rw [mem_group_add, hlayer]
        by_cases hs' : s' = sess
        · subst hs'
          simp only [accStep, if_pos rfl]
          constructor
          · rintro (heq | hin)
            · exact congrArg some (congrArg Prod.fst heq).symm
            · rw [haccsess] at hin
              exact Option.noConfusion hin
          · intro h
            exact Or.inl (by rw [← Option.some.inj h])
        · simp only [accStep, if_neg hs']
          constructor
          · rintro (heq | hin)
            · exact absurd (congrArg Prod.snd heq) hs'
            · exact hin
          · exact Or.inr
      · intro x hx
        rcases List.mem_cons.mp hx with rfl | hx'
        · simp [accStep]
        · have hxne : x ≠ sess := fun h => hsessact (h ▸ hx')
          simp only [accStep, if_neg hxne]
          exact hgrp x hx'
    | disconnect sess c =>
      simp only [wfAux, Bool.and_eq_true] at hwf
      obtain ⟨hmem0, hwf'⟩ := hwf
      have hmemact : sess ∈ active := by simpa using hmem0
      obtain ⟨g0, hacc0⟩ := Option.isSome_iff_exists.mp ((hact sess).mp hmemact)
      have hgg0 : st.grp sess = some g0 := (hgrp sess hmemact).trans hacc0
      have hstep : step alive st (Event.disconnect sess c) =
          { st with layer := group_discard g0 sess st.layer } := by
        simp [step, hgg0]
      rw [run, hstep, accRun]
      refine ih _ _ (active.erase sess) seen hwf' (hnd.erase sess) ?_ ?_ ?_ ?_ g s
      · intro x
        rw [hnd.mem_erase_iff]
        by_cases hx : x = sess
        · subst hx; simp [accStep]
        · simp only [accStep, if_neg hx]
          rw [← hact x]
          simp [hx]
      · intro x hx
        exact hsub x (List.mem_of_mem_erase hx)
      · intro g' s'
        rw [mem_group_discard, hlayer]
        by_cases hs' : s' = sess
        · subst hs'
          simp only [accStep, if_pos rfl]
          constructor
          · rintro ⟨hin, hne⟩
            rw [hacc0] at hin
            exact absurd (by rw [← Option.some.inj hin]) hne
          · intro h
            exact Option.noConfusion h
        · simp only [accStep, if_neg hs']
          constructor
          · exact fun h => h.1
          · intro h
            exact ⟨h, fun hc => hs' (congrArg Prod.snd hc)⟩
      · intro x hx
        have hxne : x ≠ sess := (hnd.mem_erase_iff.mp hx).1
        simp only [accStep, if_neg hxne]
        exact hgrp x (List.mem_of_mem_erase hx)
    | notify p m =>
      simp only [wfAux] at hwf
      rw [run, accRun]
      exact ih (step alive st (Event.notify p m)) (accStep acc (Event.notify p m))
        active seen hwf hnd hact hsub hlayer hgrp g s

/-- A session that is not registered anywhere and is never connected by the
trace stays unregistered, and receives no new delivery. -/
theorem run_nonmember_stable (alive : String → Bool) (S : String) :
    ∀ (tr : List Event) (st : Sys),
      tr.all (fun e => !connectsSession S e) = true →
      (∀ g, (g, S) ∉ st.layer) →
      (∀ g, (g, S) ∉ (run alive st tr).layer) ∧
      (∀ w, (S, w) ∈ (run alive st tr).log → (S, w) ∈ st.log) := by
  intro tr
  induction tr with
  | nil => exact fun st _ hS => ⟨hS, fun _ h => h⟩
  | cons e tr ih =>
    intro st hall hS
    rw [List.all_cons, Bool.and_eq_true] at hall
    obtain ⟨he, hall'⟩ := hall
    cases e with
    | connect p sess =>
      have hne : sess ≠ S := by
        simpa [connectsSession] using he
      have hS' : ∀ g, (g, S) ∉ (step alive st (Event.connect p sess)).layer := by
        intro g hin
        rcases mem_group_add.mp hin with heq | hin'
        · exact hne (congrArg Prod.snd heq).symm
        · exact hS g hin'
      have := ih (step alive st (Event.connect p sess)) hall' hS'
      exact ⟨this.1, fun w hw => this.2 w hw⟩
    | disconnect sess c =>
      have hS' : ∀ g, (g, S) ∉ (step alive st (Event.disconnect sess c)).layer := by
        intro g hin
        cases hgs : st.grp sess with
        | none => simp only [step, hgs] at hin; exact hS g hin
        | some g0 =>
          simp only [step, hgs] at hin
          exact hS g (mem_group_discard.mp hin).1
      have hlog : (step alive st (Event.disconnect sess c)).log = st.log := by
        cases hgs : st.grp sess <;> simp [step, hgs]
      have := ih (step alive st (Event.disconnect sess c)) hall' hS'
      exact ⟨this.1, fun w hw => hlog ▸ this.2 w hw⟩
    | notify p m =>
      have hS' : ∀ g, (g, S) ∉ (step alive st (Event.notify p m)).layer := hS
      have := ih (step alive st (Event.notify p m)) hall' hS'
      refine ⟨this.1, fun w hw => ?_⟩
      have hw' := this.2 w hw
      simp only [step, List.mem_append] at hw'
      rcases hw' with hw' | hw'
      · exact hw'
      · exact absurd (mem_group_send.mp hw').1 (hS _)

/-! ### Claims -/

/-- C1: `notify(P, m)` delivers exactly the one-field JSON object
`{"message": m}` to every session currently registered in group(P), and
delivers nothing to a session registered only in a different group(P'),
P' ≠ P. -/
theorem notify_delivers_exactly_to_group (alive : String → Bool)
    (layer : GroupState) (P m : String) (halive : ∀ ch, alive ch = true) :
    (∀ s w, (s, w) ∈ notify alive P m layer ↔
      (s ∈ groupMembers (postGroupName P) layer ∧ w = { message := m })) ∧
    (∀ P' s, P' ≠ P → (∀ g, (g, s) ∈ layer → g = postGroupName P') →
      ∀ w, (s, w) ∉ notify alive P m layer) := by
  constructor
  · intro s w
    rw [notify, mem_group_send, mem_groupMembers, send_notification_notifyEvent]
    constructor
    · rintro ⟨hmem, _, hsend⟩
      exact ⟨hmem, (Option.some.inj hsend).symm⟩
    · rintro ⟨hmem, rfl⟩
      exact ⟨hmem, halive s, rfl⟩
  · intro P' s hne honly w hmem
    have h := (mem_group_send.mp hmem).1
    exact hne (postGroupName_injective (honly _ h)).symm

/-- Witness for C1: in a layer where group(42) holds A and B and group(7)
holds C, `notify(42, "hello")` delivers `{"message": "hello"}` to A. -/
theorem notify_delivers_exactly_to_group_witness :
    ("A", ({ message := "hello" } : WireMessage)) ∈
      notify (fun _ => true) "42" "hello"
        [(postGroupName "42", "A"), (postGroupName "42", "B"),
         (postGroupName "7", "C")] :=
  ((notify_delivers_exactly_to_group (fun _ => true) _ "42" "hello"
    (fun _ => rfl)).1 "A" _).mpr ⟨by decide, rfl⟩

/-- C2: `connect` derives the group key as the fixed text `post_` followed
by the post id, and registers the session in that group and (for a fresh
session) in no other group. -/
theorem connect_registers_only_in_group (url_kwargs : List (String × String))
    (c : NotificationConsumer) (layer : GroupState) (P : String)
    (hpid : lookup "post_id" url_kwargs = some P)
    (hfresh : ∀ g, (g, c.channel_name) ∉ layer) :
    ∃ c' layer', connect url_kwargs c layer = some (c', layer') ∧
      c'.post_group_name = some ("post_" ++ P) ∧
      ∀ g, ((g, c.channel_name) ∈ layer' ↔ g = postGroupName P) := by
  unfold connect
  rw [hpid]
  refine ⟨_, _, rfl, rfl, ?_⟩
  intro g
  show (g, c.channel_name) ∈ group_add (postGroupName P) c.channel_name layer
    ↔ g = postGroupName P
  rw [mem_group_add]
  constructor
  · rintro (heq | hin)
    · exact congrArg Prod.fst heq
    · exact absurd hin (hfresh g)
  · rintro rfl
    exact Or.inl rfl

/-- Witness for C2: a fresh session connecting with post id 42. -/
theorem connect_registers_only_in_group_witness :
    ∃ c' layer',
      connect [("post_id", "42")] { channel_name := "chanA" } [] =
        some (c', layer') ∧
      c'.post_group_name = some ("post_" ++ "42") ∧
      ∀ g, ((g, "chanA") ∈ layer' ↔ g = postGroupName "42") :=
  connect_registers_only_in_group [("post_id", "42")]
    { channel_name := "chanA" } [] "42" (by decide)
    (fun g h => List.not_mem_nil (g, "chanA") h)

/-- C3: whenever `post_id` is present in the routing parameters, `connect`
succeeds and accepts the connection; no other check is made and no error
branch is reachable. -/
theorem connect_always_accepts (url_kwargs : List (String × String))
    (c : NotificationConsumer) (layer : GroupState) (P : String)
    (hpid : lookup "post_id" url_kwargs = some P) :
    ∃ c' layer', connect url_kwargs c layer = some (c', layer') ∧
      c'.accepted = true := by
  unfold connect
  rw [hpid]
  exact ⟨_, _, rfl, rfl⟩

/-- Witness for C3. -/
theorem connect_always_accepts_witness :
    ∃ c' layer',
      connect [("post_id", "7")] { channel_name := "chanC" } [] =
        some (c', layer') ∧ c'.accepted = true :=
  connect_always_accepts [("post_id", "7")] { channel_name := "chanC" } []
    "7" (by decide)

/-- C4: `disconnect` removes the session from its group whatever the close
code is; discarding a session that is not registered is a no-op and no
error is raised. -/
theorem disconnect_removes_regardless_of_code (c : NotificationConsumer)
    (layer : GroupState) (g : String) (hg : c.post_group_name = some g)
    (code code' : Nat) :
    disconnect code c layer =
      some (group_discard g c.channel_name layer) ∧
    disconnect code c layer = disconnect code' c layer ∧
    (g, c.channel_name) ∉ group_discard g c.channel_name layer ∧
    ((g, c.channel_name) ∉ layer → disconnect code c layer = some layer) := by
  have hd : ∀ k : Nat,
      disconnect k c layer = some (group_discard g c.channel_name layer) := by
    intro k
    unfold disconnect
    rw [hg]
  refine ⟨hd code, (hd code).trans (hd code').symm, ?_, ?_⟩
  · intro h
    exact (mem_group_discard.mp h).2 rfl
  · intro hnot
    rw [hd code]
    refine congrArg some ?_
    refine List.filter_eq_self.mpr ?_
    intro p hp
    exact decide_eq_true (fun he => hnot (he ▸ hp))

/-- Witness for C4: disconnecting the same consumer with close codes 1000
and 1006 has the same effect. -/
theorem disconnect_removes_regardless_of_code_witness :
    disconnect 1000
      { channel_name := "chanA", post_group_name := some (postGroupName "42"),
        accepted := true } [(postGroupName "42", "chanA")] =
    disconnect 1006
      { channel_name := "chanA", post_group_name := some (postGroupName "42"),
        accepted := true } [(postGroupName "42", "chanA")] :=
  (disconnect_removes_regardless_of_code
    { channel_name := "chanA", post_group_name := some (postGroupName "42"),
      accepted := true } [(postGroupName "42", "chanA")]
    (postGroupName "42") rfl 1000 1006).2.1

/-- C8: the fan-out outcome for one session depends only on that session's
own connection state: changing whether any other session is alive does not
change whether (and what) this session receives, and `group_send` returns
normally (it is a total function) rather than propagating a send failure. -/
theorem fanout_send_failures_isolated (alive alive' : String → Bool)
    (group : String) (event : List (String × String)) (layer : GroupState)
    (s : String) (h : alive s = alive' s) :
    ∀ w, ((s, w) ∈ group_send alive group event layer ↔
          (s, w) ∈ group_send alive' group event layer) := by
  intro w
  rw [mem_group_send, mem_group_send, h]

/-- Witness for C8: A's delivery is unaffected by B's connection being
dead. -/
theorem fanout_send_failures_isolated_witness :
    (("A", ({ message := "hi" } : WireMessage)) ∈
      group_send (fun _ => true) (postGroupName "42") (notifyEvent "hi")
        [(postGroupName "42", "A"), (postGroupName "42", "B")] ↔
     ("A", ({ message := "hi" } : WireMessage)) ∈
      group_send (fun ch => decide (ch ≠ "B")) (postGroupName "42")
        (notifyEvent "hi")
        [(postGroupName "42", "A"), (postGroupName "42", "B")]) :=
  fanout_send_failures_isolated (fun _ => true) (fun ch => decide (ch ≠ "B"))
    (postGroupName "42") (notifyEvent "hi")
    [(postGroupName "42", "A"), (postGroupName "42", "B")] "A" (by decide)
    { message := "hi" }

/-- C9: the handler `send_notification` requires the key `message` in its
event dict: without it, it fails with a lookup error before sending
anything; with it, it sends the one-field payload. -/
theorem send_notification_requires_message_key
    (event : List (String × String)) :
    (lookup "message" event = none → send_notification event = none) ∧
    ∀ m, lookup "message" event = some m →
      send_notification event = some { message := m } := by
  constructor
  · intro h
    rw [send_notification, h]
    rfl
  · intro m h
    rw [send_notification, h]
    rfl

/-- Witness for C9: an event dict lacking the `message` key produces no
outbound payload. -/
theorem send_notification_requires_message_key_witness :
    send_notification [("type", "send_notification")] = none :=
  (send_notification_requires_message_key
    [("type", "send_notification")]).1 (by decide)

/-- C5: over any well-formed execution trace, a registration `(g, s)` is in
the channel layer exactly when the spec-side account — the group fixed at
the session's connect, unless it disconnected since — assigns `g` to `s`;
in particular, each session belongs to at most one group, so group(P)'s
membership is exactly the sessions that connected with postId = P and have
not yet disconnected. -/
theorem trace_membership_invariant (alive : String → Bool) (tr : List Event)
    (hWF : wf tr = true) :
    (∀ g s, (g, s) ∈ (run alive initSys tr).layer ↔
      activeGroup tr s = some g) ∧
    (∀ s g g', (g, s) ∈ (run alive initSys tr).layer →
      (g', s) ∈ (run alive initSys tr).layer → g = g') := by
  have main : ∀ g s, (g, s) ∈ (run alive initSys tr).layer ↔
      activeGroup tr s = some g := by
    intro g s
    exact run_layer_invariant alive tr initSys (fun _ => none) [] [] hWF
      List.nodup_nil (by intro s'; simp) (fun _ h => h)
      (by intro g' s'; simp [initSys]) (fun s' h => absurd h (List.not_mem_nil s'))
      g s
  refine ⟨main, ?_⟩
  intro s g g' h1 h2
  rw [main g s] at h1
  rw [main g' s] at h2
  exact Option.some.inj (h1.symm.trans h2)

/-- Witness for C5: after A and B join group(42) and A leaves, the layer
agrees with the spec-side account on B. -/
theorem trace_membership_invariant_witness :
    ((postGroupName "42", "B") ∈
      (run (fun _ => true) initSys
        [Event.connect "42" "A", Event.connect "42" "B",
         Event.disconnect "A" 0]).layer ↔
      activeGroup
        [Event.connect "42" "A", Event.connect "42" "B",
         Event.disconnect "A" 0] "B" = some (postGroupName "42")) :=
  (trace_membership_invariant (fun _ => true)
    [Event.connect "42" "A", Event.connect "42" "B", Event.disconnect "A" 0]
    (by decide)).1 (postGroupName "42") "B"

/-- C6: a session that only connects after a `notify(P, m)` has completed
never receives that notification: if the trace up to and including the
notify contains no connect of S, the delivery log at that point holds
nothing for S (deliveries of a notify happen at the notify step only, so
there is no backlog or replay for late joiners). -/
theorem no_retroactive_delivery (alive : String → Bool) (tr1 : List Event)
    (P m S : String)
    (h : tr1.all (fun e => !connectsSession S e) = true) :
    ∀ w, (S, w) ∉ (run alive initSys (tr1 ++ [Event.notify P m])).log := by
  intro w hw
  have hall : (tr1 ++ [Event.notify P m]).all
      (fun e => !connectsSession S e) = true := by
    rw [List.all_append, h]
    rfl
  have hlog := (run_nonmember_stable alive S (tr1 ++ [Event.notify P m])
    initSys hall (fun g hg => absurd hg (List.not_mem_nil _))).2 w hw
  exact absurd hlog (List.not_mem_nil _)

/-- Witness for C6: B, absent while `notify(42, "hello")` ran, has received
nothing by the time that notify completed. -/
theorem no_retroactive_delivery_witness :
    ("B", ({ message := "hello" } : WireMessage)) ∉
      (run (fun _ => true) initSys
        ([Event.connect "42" "A"] ++ [Event.notify "42" "hello"])).log :=
  no_retroactive_delivery (fun _ => true) [Event.connect "42" "A"]
    "42" "hello" "B" (by decide) { message := "hello" }

/-- C7: once S has disconnected (and does not reconnect), no subsequent
notify delivers to S: every delivery to S in the full run was already in
the log when S's disconnect completed. -/
theorem no_delivery_after_disconnect (alive : String → Bool)
    (tr1 tr2 : List Event) (S : String) (c : Nat)
    (hWF : wf (tr1 ++ Event.disconnect S c :: tr2) = true)
    (hnc : tr2.all (fun e => !connectsSession S e) = true) :
    ∀ w, (S, w) ∈ (run alive initSys (tr1 ++ Event.disconnect S c :: tr2)).log →
      (S, w) ∈ (run alive initSys (tr1 ++ [Event.disconnect S c])).log := by
  intro w hw
  have hsplit : tr1 ++ Event.disconnect S c :: tr2
      = (tr1 ++ [Event.disconnect S c]) ++ tr2 := by simp
  rw [hsplit] at hWF hw
  have hWF1 : wf (tr1 ++ [Event.disconnect S c]) = true := wfAux_append_left hWF
  have hmain : ∀ g, (g, S) ∈ (run alive initSys (tr1 ++ [Event.disconnect S c])).layer ↔
      activeGroup (tr1 ++ [Event.disconnect S c]) S = some g := by
    intro g
    exact run_layer_invariant alive (tr1 ++ [Event.disconnect S c]) initSys
      (fun _ => none) [] [] hWF1 List.nodup_nil (by intro s'; simp)
      (fun _ h => h) (by intro g' s'; simp [initSys])
      (fun s' h => absurd h (List.not_mem_nil s')) g S
  have hnone : ∀ g, (g, S) ∉ (run alive initSys (tr1 ++ [Event.disconnect S c])).layer := by
    intro g hg
    have hacc := (hmain g).mp hg
    rw [activeGroup, accRun_append] at hacc
    simp [accRun, accStep] at hacc
  rw [run_append] at hw
  exact (run_nonmember_stable alive S tr2
    (run alive initSys (tr1 ++ [Event.disconnect S c])) hnc hnone).2 w hw

/-- Witness for C7: the "x" that A received before disconnecting was
already in the log at disconnect time; the notify after the disconnect
added nothing for A. -/
theorem no_delivery_after_disconnect_witness :
    ("A", ({ message := "x" } : WireMessage)) ∈
      (run (fun _ => true) initSys
        ([Event.connect "42" "A", Event.notify "42" "x"] ++
          [Event.disconnect "A" 0])).log :=
  no_delivery_after_disconnect (fun _ => true)
    [Event.connect "42" "A", Event.notify "42" "x"] [Event.notify "42" "x"]
    "A" 0 (by decide) (by decide) { message := "x" } (by decide)

/-- C10: in the body of connect, `group_add` precedes `accept`, so a
session whose connect has completed is already registered in its group and
a notify published right after the connect reaches it. -/
theorem group_add_before_accept (alive : String → Bool) (tr : List Event)
    (P S m : String) (ha : alive S = true) :
    connectBody.indexOf ConnectAction.group_add_call <
      connectBody.indexOf ConnectAction.accept_call ∧
    (postGroupName P, S) ∈
      (run alive initSys (tr ++ [Event.connect P S])).layer ∧
    (S, { message := m }) ∈
      (run alive initSys (tr ++ [Event.connect P S, Event.notify P m])).log := by
  refine ⟨by decide, ?_, ?_⟩
  · rw [run_append]
    simp only [run]
    exact mem_group_add.mpr (Or.inl rfl)
  · rw [run_append]
    simp only [run]
    refine List.mem_append.mpr (Or.inr ?_)
    exact mem_group_send.mpr
      ⟨mem_group_add.mpr (Or.inl rfl), ha, send_notification_notifyEvent m⟩

/-- Witness for C10: with all connections alive, A is registered right
after its connect, and an immediately following notify reaches A. -/
theorem group_add_before_accept_witness :
    (postGroupName "42", "A") ∈
      (run (fun _ => true) initSys ([] ++ [Event.connect "42" "A"])).layer :=
  (group_add_before_accept (fun _ => true) [] "42" "A" "hello" rfl).2.1

end Blog
